import Mathlib

/-!
Verification of the order-creation transaction and payment-state
reconciliation subsystem of an e-commerce backend (Express + PostgreSQL).

The handlers are embedded shallowly:

* The relational store (`Store`) holds the `products` and `orders` tables as
  maps from ids, the `order_items` table as a list of rows, and the next
  serial order id.
* Each HTTP handler becomes a pure function from its inputs and a `Store`
  to a new `Store` plus a response (an HTTP status code, and for order
  creation a structured response carrying the thrown error).
* A transaction (BEGIN .. COMMIT/ROLLBACK) is embedded by running the steps
  on a working copy of the store and returning the original store on any
  error path (ROLLBACK) or the final copy on success (COMMIT).
* JavaScript arithmetic on monetary amounts is binary64 floating point.
  Monetary values (NUMERIC columns and JS numbers alike) are represented
  exactly as integers scaled by 10^1200, and every JS arithmetic step is
  followed by `fround`, correctly-rounded (round-to-nearest, ties-to-even)
  conversion to a 53-bit significand.  The model idealises the exponent
  range: values below 2^-1074 flush to zero, subnormal granularity and
  overflow to infinity are not modelled; all monetary values in the claims
  are far inside the normal range.  Integer fields (stock, quantities) are
  plain integers, exact in binary64 up to 2^53.
-/

/-- Fuel-driven binary exponentiation, kernel-reducible on large literals. -/
def powF : ℕ → ℕ → ℕ → ℕ
  | 0, _, _ => 1
  | f+1, b, e =>
    if e = 0 then 1
    else
      let h := powF f b (e / 2)
      if e % 2 = 0 then h * h else h * h * b

/-- `powc b e = b ^ e`, computable by the kernel in ~log e steps. -/
def powc (b e : ℕ) : ℕ := powF e b e

/-- Fuel-driven floor of log2, peeling large chunks to keep recursion shallow. -/
def log2F : ℕ → ℕ → ℕ
  | 0, _ => 0
  | f+1, n =>
    if powc 2 4096 ≤ n then log2F f (n / powc 2 4096) + 4096
    else if powc 2 256 ≤ n then log2F f (n / powc 2 256) + 256
    else if powc 2 16 ≤ n then log2F f (n / powc 2 16) + 16
    else if 2 ≤ n then log2F f (n / 2) + 1
    else 0

/-- Floor of log2 of a natural number (0 for 0 and 1). -/
def natLog2c (n : ℕ) : ℕ := log2F n n

/-- Decides `2 ^ e ≤ N / D` for a positive rational `N / D`. -/
def pow2LE (e : ℤ) (N D : ℕ) : Bool :=
  if 0 ≤ e then (if powc 2 e.toNat * D ≤ N then true else false)
  else (if D ≤ powc 2 (-e).toNat * N then true else false)

/-- Floor of log2 of the positive rational `N / D`. -/
def ratFloorLog2 (N D : ℕ) : ℤ :=
  let e0 : ℤ := (natLog2c N : ℤ) - (natLog2c D : ℤ)
  if pow2LE e0 N D then e0 else e0 - 1

/-- Rounds `N / D` to the nearest natural number, ties to even. -/
def rne (N D : ℕ) : ℕ :=
  let q := N / D
  let r := N % D
  if 2 * r < D then q else if D < 2 * r then q + 1 else if q % 2 = 0 then q else q + 1

/-- Decimal scale exponent of the monetary representation: a value `x` is
stored as the integer `x * 10 ^ SC`. -/
def SC : ℕ := 1200

/-- Binary64 rounding of the positive rational `N / D`, returned at scale
`10 ^ SC`: round the significand to 53 bits, nearest, ties to even. -/
def froundPos (N D : ℕ) : ℤ :=
  let e : ℤ := ratFloorLog2 N D
  if e < -1074 then 0
  else if 52 ≤ e then
    (rne N (D * powc 2 (e - 52).toNat) : ℤ) * (powc 2 (e - 52).toNat : ℕ) * (powc 10 SC : ℕ)
  else
    (rne (N * powc 2 (52 - e).toNat) D : ℤ) * (powc 5 (52 - e).toNat : ℕ) *
      (powc 10 ((SC : ℤ) + e - 52).toNat : ℕ)

/-- Binary64 rounding of the value `V / 10 ^ k`, returned at scale `10 ^ SC`. -/
def fround (k : ℕ) (V : ℤ) : ℤ :=
  if V = 0 then 0
  else if 0 < V then froundPos V.toNat (powc 10 k)
  else -froundPos (-V).toNat (powc 10 k)

/-- JS addition of two binary64 values (at scale `10 ^ SC`). -/
def fadd (X Y : ℤ) : ℤ := fround SC (X + Y)

/-- JS multiplication of two binary64 values (at scale `10 ^ SC`). -/
def fmul (X Y : ℤ) : ℤ := fround (SC + SC) (X * Y)

/-- The binary64 value of an integer (exact below 2^53), at scale `10 ^ SC`. -/
def fofInt (q : ℤ) : ℤ := fround SC (q * (powc 10 SC : ℕ))

/-- `parseFloat` applied to the decimal text of a NUMERIC column value:
correctly-rounded decimal-to-binary64 conversion. -/
def fParse (X : ℤ) : ℤ := fround SC X

/-- The exact scaled integer for the decimal `d * 10 ^ (-k)`
(e.g. `dec 1 1` is the NUMERIC value 0.1). -/
def dec (d k : ℕ) : ℤ := (d : ℤ) * (powc 10 (SC - k) : ℕ)

/-- A row of the `products` table, restricted to the columns the core reads:
`price` (NUMERIC) and `stock_quantity` (INTEGER).  Catalog text columns
(name, description, category, image_url) are owned by external CRUD and
carry no invariant, so they are not represented. -/
structure Product where
  price : ℤ
  stock_quantity : ℤ
deriving DecidableEq

/-- A row of the `orders` table (timestamps omitted). -/
structure Order where
  user_id : ℕ
  total_amount : ℤ
  status : String
  payment_status : String
  shipping_address : String
  stripe_payment_intent_id : Option String
deriving DecidableEq

/-- A row of the `order_items` table. -/
structure OrderItem where
  order_id : ℕ
  product_id : ℕ
  quantity : ℤ
  price_at_purchase : ℤ
deriving DecidableEq

/-- One element of the request body's `items` array. -/
structure RequestItem where
  productId : ℕ
  quantity : ℤ
deriving DecidableEq

/-- One element of the handler's `orderItemsToInsert` working array. -/
structure PendingItem where
  productId : ℕ
  quantity : ℤ
  priceAtPurchase : ℤ
deriving DecidableEq

/-- The relational store: `products` and `orders` keyed by id,
`order_items` as a list of rows, and the next serial order id. -/
structure Store where
  products : ℕ → Option Product
  orders : ℕ → Option Order
  order_items : List OrderItem
  nextOrderId : ℕ

/-- The error thrown inside the order-creation transaction; its fields are
the data interpolated into the thrown `Error` message. -/
inductive OrderError where
  | productNotFound (productId : ℕ)
  | insufficientStock (productId : ℕ) (available requested : ℤ)
  | persistence
deriving DecidableEq

/-- The response of the POST /orders handler. -/
inductive OrderResp where
  | created (orderId : ℕ) (totalAmount : ℤ)
  | validationError
  | txError (e : OrderError)
deriving DecidableEq

/-- HTTP status code of an order-creation response: 201 on success, 400 for
failed input validation, 500 from the catch-all error handler. -/
def OrderResp.status : OrderResp → ℕ
  | .created _ _ => 201
  | .validationError => 400
  | .txError _ => 500

/-- Whether the response reports a committed order. -/
def OrderResp.isCreated : OrderResp → Bool
  | .created _ _ => true
  | _ => false

/-- The `for (const item of items)` loop of the POST /orders handler: per
item, SELECT price and stock FOR UPDATE (missing row throws), check
`productStock < item.quantity` (shortfall throws), accumulate
`totalAmount += productPrice * item.quantity` in binary64, push the pending
order item with the parsed price snapshot, and UPDATE the product's stock
to `stock_quantity - quantity` inside the transaction. -/
def processItems : List RequestItem → Store → ℤ → List PendingItem →
    Except OrderError (Store × ℤ × List PendingItem)
  | [], st, totalAmount, acc => .ok (st, totalAmount, acc)
  | item :: rest, st, totalAmount, acc =>
    match st.products item.productId with
    | none => .error (.productNotFound item.productId)
    | some product =>
      let productPrice := fParse product.price
      let productStock := product.stock_quantity
      if productStock < item.quantity then
        .error (.insufficientStock item.productId productStock item.quantity)
      else
        let newStock := product.stock_quantity - item.quantity
        let st' : Store :=
          { st with products := fun i =>
              if i = item.productId then some { product with stock_quantity := newStock }
              else st.products i }
        processItems rest st' (fadd totalAmount (fmul productPrice (fofInt item.quantity)))
          (acc ++ [⟨item.productId, item.quantity, productPrice⟩])

/-- The POST /orders handler.  Validation rejects a missing shipping address
or an empty item list with 400.  The transaction body runs `processItems`,
then INSERTs the order row (payment_status 'pending', status defaulted
'pending') and its order_items rows, and commits; any thrown error (missing
product, insufficient stock, or a persistence failure, injected here by
`persistFail`) reaches the catch branch, which ROLLBACKs — the returned
store is the incoming one — and answers 500. -/
def createOrder (userId : ℕ) (shipping_address : String) (items : List RequestItem)
    (persistFail : Bool) (st : Store) : Store × OrderResp :=
  if shipping_address = "" ∨ items = [] then (st, .validationError)
  else
    match processItems items st 0 [] with
    | .error e => (st, .txError e)
    | .ok (st1, totalAmount, pending) =>
      if persistFail then (st, .txError .persistence)
      else
        let orderId := st1.nextOrderId
        let newOrder : Order :=
          { user_id := userId, total_amount := totalAmount, status := "pending",
            payment_status := "pending", shipping_address := shipping_address,
            stripe_payment_intent_id := none }
        ({ products := st1.products,
           orders := fun i => if i = orderId then some newOrder else st1.orders i,
           order_items := st1.order_items ++
             pending.map (fun p => ⟨orderId, p.productId, p.quantity, p.priceAtPurchase⟩),
           nextOrderId := orderId + 1 },
         .created orderId totalAmount)

/-- One POST /orders request (identity, body, and an injected persistence
failure flag for the INSERT phase of the transaction). -/
structure OrderRequest where
  userId : ℕ
  shipping_address : String
  items : List RequestItem
  persistFail : Bool

/-- Runs one request against a store. -/
def applyCreate (r : OrderRequest) (st : Store) : Store × OrderResp :=
  createOrder r.userId r.shipping_address r.items r.persistFail st

/-- Runs a sequence of creation requests left to right. -/
def runOrders : List OrderRequest → Store → Store
  | [], st => st
  | r :: rs, st => runOrders rs (applyCreate r st).1

/-- Total quantity an item list requests for product `pid`. -/
def qtyFor (pid : ℕ) (items : List RequestItem) : ℤ :=
  (items.map (fun it => if it.productId = pid then it.quantity else 0)).sum

/-- Total quantity of product `pid` claimed by the requests of the sequence
that commit (evaluated against the evolving store). -/
def committedQty (pid : ℕ) : List OrderRequest → Store → ℤ
  | [], _ => 0
  | r :: rs, st =>
    (if (applyCreate r st).2.isCreated then qtyFor pid r.items else 0) +
      committedQty pid rs (applyCreate r st).1

/-- The PUT /products/:id handler.  Validation mirrors the JS truthiness
checks (`!name || !price || !category` rejects an empty name or category and
a zero price) and the explicit negativity checks; then the UPDATE replaces
the row's columns, returning 404 when no row matches.  Only the columns the
core reads are kept in the model. -/
def updateProduct (id : ℕ) (name : String) (price : ℤ) (category : String)
    (stock_quantity : ℤ) (st : Store) : Store × ℕ :=
  if name = "" ∨ price = 0 ∨ category = "" then (st, 400)
  else if price < 0 ∨ stock_quantity < 0 then (st, 400)
  else
    match st.products id with
    | none => (st, 404)
    | some _ =>
      ({ st with products := fun i =>
          if i = id then some ⟨price, stock_quantity⟩ else st.products i }, 200)

/-- The DELETE /products/:id handler: DELETE returning 404 on no row; a
foreign-key violation (the product is referenced by some order_items row,
PostgreSQL error 23503) is answered with 400 and no change. -/
def deleteProduct (id : ℕ) (st : Store) : Store × ℕ :=
  match st.products id with
  | none => (st, 404)
  | some _ =>
    if st.order_items.any (fun it => if it.product_id = id then true else false) then (st, 400)
    else ({ st with products := fun i => if i = id then none else st.products i }, 200)

/-- The status values the PATCH /orders/:id/status handler accepts. -/
def allowedStatuses : List String :=
  ["pending", "processing", "shipped", "delivered", "cancelled"]

/-- The payment-status values PATCH /orders/:id/payment-status accepts. -/
def allowedPaymentStatuses : List String :=
  ["pending", "completed", "failed", "refunded"]

/-- The PATCH /orders/:id/status handler (admin): set-membership validation,
then UPDATE of the single row, 404 when absent. -/
def setOrderStatus (id : ℕ) (status : String) (st : Store) : Store × ℕ :=
  if ¬ status ∈ allowedStatuses then (st, 400)
  else
    match st.orders id with
    | none => (st, 404)
    | some o =>
      ({ st with orders := fun i =>
          if i = id then some { o with status := status } else st.orders i }, 200)

/-- The PATCH /orders/:id/payment-status handler (admin). -/
def setOrderPaymentStatus (id : ℕ) (payment_status : String) (st : Store) : Store × ℕ :=
  if ¬ payment_status ∈ allowedPaymentStatuses then (st, 400)
  else
    match st.orders id with
    | none => (st, 404)
    | some o =>
      ({ st with orders := fun i =>
          if i = id then some { o with payment_status := payment_status } else st.orders i }, 200)

/-- A Stripe event as far as the webhook handler reads it: its `type`, the
`metadata.orderId` embedded in the payment intent (absent or empty reads as
`none`), and the payment intent's id. -/
structure StripeEvent where
  type : String
  metadataOrderId : Option ℕ
  paymentIntentId : String
deriving DecidableEq

/-- The conditional UPDATE the webhook runs: set `payment_status` only on
rows where `id = $1 AND stripe_payment_intent_id = $2`. -/
def applyPaymentUpdate (newStatus : String) (oid : ℕ) (piId : String) (st : Store) : Store :=
  { st with orders := fun i =>
      match st.orders i with
      | some o =>
        if i = oid ∧ o.stripe_payment_intent_id = some piId then
          some { o with payment_status := newStatus }
        else some o
      | none => none }

/-- The POST /api/stripe-webhook handler.  If the webhook secret is unset or
still the placeholder, answer 400 without touching the payload.  Signature
verification over the raw body (`stripe.webhooks.constructEvent`) is an
external cryptographic call, embedded as its outcome `constructedEvent`
(`none` = verification threw, answered 400).  A verified event is then
dispatched on its type: the two payment_intent kinds run the conditional
UPDATE when `metadata.orderId` is present, every other kind is ignored; the
handler always acknowledges a verified event with 200 `{received: true}`
(database failures are caught and logged, never change the reply). -/
def handleStripeWebhook (secretConfigured : Bool) (constructedEvent : Option StripeEvent)
    (st : Store) : Store × ℕ :=
  if secretConfigured = false then (st, 400)
  else
    match constructedEvent with
    | none => (st, 400)
    | some event =>
      if event.type = "payment_intent.succeeded" then
        match event.metadataOrderId with
        | some oid => (applyPaymentUpdate "completed" oid event.paymentIntentId st, 200)
        | none => (st, 200)
      else if event.type = "payment_intent.payment_failed" then
        match event.metadataOrderId with
        | some oid => (applyPaymentUpdate "failed" oid event.paymentIntentId st, 200)
        | none => (st, 200)
      else (st, 200)

/-- Deletion of an order and its items (DELETE FROM order_items, then
DELETE FROM orders, inside the one transaction). -/
def eraseOrder (id : ℕ) (st : Store) : Store :=
  { st with
    orders := fun i => if i = id then none else st.orders i,
    order_items := st.order_items.filter (fun it => if it.order_id = id then false else true) }

/-- The DELETE /orders/:id handler: SELECT the order FOR UPDATE (404 when
absent, after ROLLBACK); an admin deletes unconditionally; any other caller
must own the order (else 403) and the order must be cancelled (else 400);
then both deletes run and the transaction commits. -/
def deleteOrder (userId : ℕ) (userRole : String) (id : ℕ) (st : Store) : Store × ℕ :=
  match st.orders id with
  | none => (st, 404)
  | some order =>
    if userRole = "admin" then (eraseOrder id st, 200)
    else if ¬ order.user_id = userId then (st, 403)
    else if ¬ order.status = "cancelled" then (st, 400)
    else (eraseOrder id st, 200)

/-- Every store-mutating operation of the modelled surface. -/
inductive Op where
  | create (userId : ℕ) (shipping_address : String) (items : List RequestItem) (persistFail : Bool)
  | productUpdate (id : ℕ) (name : String) (price : ℤ) (category : String) (stock_quantity : ℤ)
  | productDelete (id : ℕ)
  | statusUpdate (id : ℕ) (status : String)
  | paymentStatusUpdate (id : ℕ) (payment_status : String)
  | webhook (secretConfigured : Bool) (constructedEvent : Option StripeEvent)
  | orderDelete (userId : ℕ) (userRole : String) (id : ℕ)

/-- The store produced by one operation. -/
def applyOp : Op → Store → Store
  | .create u a its pf, st => (createOrder u a its pf st).1
  | .productUpdate i n p c s, st => (updateProduct i n p c s st).1
  | .productDelete i, st => (deleteProduct i st).1
  | .statusUpdate i s, st => (setOrderStatus i s st).1
  | .paymentStatusUpdate i s, st => (setOrderPaymentStatus i s st).1
  | .webhook cfg ev, st => (handleStripeWebhook cfg ev st).1
  | .orderDelete u r i, st => (deleteOrder u r i st).1

/-- The store produced by a sequence of operations, left to right. -/
def applyOps : List Op → Store → Store
  | [], st => st
  | op :: ops, st => applyOps ops (applyOp op st)

/-- The order_items rows of order `oid`, in insertion order. -/
def itemsOf (st : Store) (oid : ℕ) : List OrderItem :=
  st.order_items.filter (fun it => if it.order_id = oid then true else false)

/-- The binary64 left-fold the creation handler performs:
`totalAmount += price_at_purchase * quantity` over the rows in order. -/
def itemsTotal (l : List OrderItem) : ℤ :=
  l.foldl (fun t it => fadd t (fmul it.price_at_purchase (fofInt it.quantity))) 0

/-- The exact decimal sum `Σ price_at_purchase * quantity` over the rows,
as the claim states it (NUMERIC arithmetic, no rounding). -/
def exactItemsSum (l : List OrderItem) : ℤ :=
  (l.map (fun it => it.price_at_purchase * it.quantity)).sum

/-- Serial-id discipline of the store: order_items rows reference already
allocated order ids, and no order row sits at or above the next serial id. -/
def WFStore (st : Store) : Prop :=
  (∀ it ∈ st.order_items, it.order_id < st.nextOrderId) ∧
  (∀ oid, st.nextOrderId ≤ oid → st.orders oid = none)

/-- The total invariant: every persisted order's `total_amount` is the
binary64 left-fold of `price_at_purchase * quantity` over its items. -/
def TotalInv (st : Store) : Prop :=
  ∀ oid o, st.orders oid = some o → o.total_amount = itemsTotal (itemsOf st oid)

/-- A store with one product (price 0, stock 1), no orders. -/
def stW : Store := ⟨fun i => if i = 1 then some ⟨0, 1⟩ else none, fun _ => none, [], 1⟩

/-- A store with two products priced 0.1 and 0.2 (NUMERIC), stock 10 each. -/
def stC3 : Store :=
  ⟨fun i => if i = 1 then some ⟨dec 1 1, 10⟩ else if i = 2 then some ⟨dec 2 1, 10⟩ else none,
   fun _ => none, [], 1⟩

/-- A store with one product (price 0, stock 5), no orders. -/
def stC10 : Store := ⟨fun i => if i = 1 then some ⟨0, 5⟩ else none, fun _ => none, [], 1⟩

/-- The empty store. -/
def stEmpty : Store := ⟨fun _ => none, fun _ => none, [], 0⟩

/-- A cancelled order owned by user 3. -/
def oDel : Order := ⟨3, 0, "cancelled", "pending", "addr", none⟩

/-- A store holding order 4 (cancelled, owned by user 3) with one item row. -/
def stDel : Store :=
  ⟨fun _ => none, fun i => if i = 4 then some oDel else none, [⟨4, 1, 2, 0⟩], 5⟩

/-- An order awaiting payment intent pi_1. -/
def oA : Order := ⟨3, 0, "pending", "pending", "addr", some "pi_1"⟩

/-- A second order awaiting the different payment intent pi_2. -/
def oB : Order := ⟨4, 0, "pending", "pending", "addr", some "pi_2"⟩

/-- A store holding orders 5 (payment intent pi_1) and 6 (pi_2). -/
def stWeb : Store :=
  ⟨fun _ => none, fun i => if i = 5 then some oA else if i = 6 then some oB else none, [], 7⟩

/-- A verified succeeded event for order 5's payment intent pi_1. -/
def evW : StripeEvent := ⟨"payment_intent.succeeded", some 5, "pi_1"⟩

/-- A verified failed event for order 5's payment intent pi_1. -/
def evF : StripeEvent := ⟨"payment_intent.payment_failed", some 5, "pi_1"⟩

/-- A store with product 1 (price 0, stock 5) and product 2 (price 0, stock 1). -/
def stMulti : Store :=
  ⟨fun i => if i = 1 then some ⟨0, 5⟩ else if i = 2 then some ⟨0, 1⟩ else none,
   fun _ => none, [], 1⟩

/-- `stMulti` after the working-copy decrement of 2 units of product 1. -/
def stMulti1 : Store :=
  ⟨fun i => if i = 1 then some ⟨0, 3⟩ else stMulti.products i,
   fun _ => none, [], 1⟩

/-- C1: if an order-creation call does not commit (missing product,
insufficient stock, failed validation, or a persistence error), the store it
returns is exactly the store it was given — the transaction rolls back, no
stock decrement and no order or order_items row survives. -/
theorem createOrder_rollback (u : ℕ) (a : String) (its : List RequestItem) (pf : Bool)
    (st : Store) (h : (createOrder u a its pf st).2.isCreated = false) :
    (createOrder u a its pf st).1 = st := by
  by_cases hv : a = "" ∨ its = []
  · simp [createOrder, hv]
  · cases hproc : processItems its st 0 [] with
    | error e => simp [createOrder, hv, hproc]
    | ok r =>
      obtain ⟨st1, t1, pend⟩ := r
      cases pf with
      | false => simp [createOrder, hv, hproc, OrderResp.isCreated] at h
      | true => simp [createOrder, hv, hproc]

/-- Witness for C1 at a concrete failing call (stock 1, requested 2). -/
theorem createOrder_rollback_witness :
    (createOrder 7 "x" [⟨1, 2⟩] false stW).2.isCreated = false ∧
    (createOrder 7 "x" [⟨1, 2⟩] false stW).1 = stW :=
  ⟨by decide, createOrder_rollback 7 "x" [⟨1, 2⟩] false stW (by decide)⟩

/-- Once a prefix of the items has been processed on the working copy, the
loop over the whole list continues from the working state the prefix left. -/
lemma processItems_append (pre : List RequestItem) :
    ∀ (st : Store) (total : ℤ) (acc : List PendingItem) (st1 : Store) (t1 : ℤ)
      (acc1 : List PendingItem) (its2 : List RequestItem),
      processItems pre st total acc = .ok (st1, t1, acc1) →
      processItems (pre ++ its2) st total acc = processItems its2 st1 t1 acc1 := by
  induction pre with
  | nil =>
    intro st total acc st1 t1 acc1 its2 h
    simp [processItems] at h
    obtain ⟨h1, h2, h3⟩ := h
    subst h1
    subst h2
    subst h3
    rfl
  | cons it pre' ih =>
    intro st total acc st1 t1 acc1 its2 h
    rw [processItems] at h
    cases hq : st.products it.productId with
    | none => rw [hq] at h; exact absurd h (by simp)
    | some prod =>
      rw [hq] at h
      by_cases hlt : prod.stock_quantity < it.quantity
      · simp [hlt] at h
      · simp only [if_neg hlt] at h
        show processItems (it :: (pre' ++ its2)) st total acc = _
        rw [processItems, hq]
        simp only [if_neg hlt]
        exact ih _ _ _ _ _ _ _ h

/-- C4 (amended): any creation request in which the stock check trips on
some item — after the earlier items were validated and decremented on the
transaction's working copy — aborts the whole transaction (the returned
store is the input store, discarding those earlier decrements) with an
InsufficientStock error carrying the product id, the transaction-local
available stock and the requested quantity; but the HTTP status the
catch-all branch sends is 500, a server-error status, not a client-error
status. -/
theorem insufficientStock_rejected (u : ℕ) (a : String) (pre : List RequestItem)
    (pid : ℕ) (q : ℤ) (rest : List RequestItem) (pf : Bool) (st st1 : Store)
    (t1 : ℤ) (acc1 : List PendingItem) (p : Product)
    (ha : ¬ a = "")
    (hpre : processItems pre st 0 [] = .ok (st1, t1, acc1))
    (hp : st1.products pid = some p)
    (hlt : p.stock_quantity < q) :
    createOrder u a (pre ++ ⟨pid, q⟩ :: rest) pf st =
      (st, .txError (.insufficientStock pid p.stock_quantity q)) ∧
    (OrderResp.txError (.insufficientStock pid p.stock_quantity q)).status = 500 := by
  constructor
  · have hfail : processItems (pre ++ (⟨pid, q⟩ : RequestItem) :: rest) st 0 [] =
        .error (.insufficientStock pid p.stock_quantity q) := by
      rw [processItems_append pre st 0 [] st1 t1 acc1 _ hpre]
      simp [processItems, hp, hlt]
    have hv : ¬ (a = "" ∨ pre ++ (⟨pid, q⟩ : RequestItem) :: rest = []) := by simp [ha]
    simp [createOrder, hv, hfail, ha]
  · rfl

/-- Counterexample for C4 as stated: at a concrete insufficient-stock call
the response status is 500, which is not a client-error (4xx) status. -/
theorem insufficientStock_counterexample :
    (createOrder 7 "x" [⟨1, 2⟩] false stW).2 = .txError (.insufficientStock 1 1 2) ∧
    (createOrder 7 "x" [⟨1, 2⟩] false stW).2.status = 500 ∧
    ¬ (createOrder 7 "x" [⟨1, 2⟩] false stW).2.status < 500 := by decide

/-- Witness for C4's amended theorem at a concrete two-item request: item 1
decrements stock 5 to 3 on the working copy, then item 2's check trips
(available 1 < requested 2) and the whole call rolls back. -/
theorem insufficientStock_rejected_witness :
    ¬ "x" = "" ∧
    processItems [⟨1, 2⟩] stMulti 0 [] = .ok (stMulti1, 0, [⟨1, 2, 0⟩]) ∧
    stMulti1.products 2 = some ⟨0, 1⟩ ∧
    ((⟨0, 1⟩ : Product).stock_quantity < (2 : ℤ)) ∧
    (createOrder 9 "x" [⟨1, 2⟩, ⟨2, 2⟩] true stMulti =
      (stMulti, .txError (.insufficientStock 2 1 2)) ∧
     (OrderResp.txError (.insufficientStock 2 1 2)).status = 500) :=
  ⟨by decide, rfl, rfl, by decide,
   insufficientStock_rejected 9 "x" [⟨1, 2⟩] 2 2 [] true stMulti stMulti1 0 [⟨1, 2, 0⟩]
     ⟨0, 1⟩ (by decide) rfl rfl (by decide)⟩

/-- C8: when the webhook secret is not configured, or signature verification
of the raw payload fails (constructEvent throws), the handler answers 400
and returns the store untouched — the payload is not processed and no
order's payment_status changes. -/
theorem webhookAuth_rejects (cfg : Bool) (cev : Option StripeEvent) (st : Store)
    (h : cfg = false ∨ cev = none) :
    handleStripeWebhook cfg cev st = (st, 400) := by
  rcases h with h | h
  · simp [handleStripeWebhook, h]
  · subst h
    cases cfg <;> simp [handleStripeWebhook]

/-- Witness for C8 at a concrete rejected delivery. -/
theorem webhookAuth_rejects_witness :
    ((false = false ∨ (some (⟨"payment_intent.succeeded", some 1, "pi_1"⟩ : StripeEvent)) = none) ∧
      handleStripeWebhook false (some ⟨"payment_intent.succeeded", some 1, "pi_1"⟩) stW =
        (stW, 400)) :=
  ⟨Or.inl rfl,
   webhookAuth_rejects false (some ⟨"payment_intent.succeeded", some 1, "pi_1"⟩) stW (Or.inl rfl)⟩

/-- C5: the PUT /products/:id handler writes only the products table: the
orders map and the order_items rows (hence every order's total_amount and
every price_at_purchase snapshot) are unchanged by any product update,
including one that changes the price. -/
theorem productUpdate_frame (id : ℕ) (n : String) (pr : ℤ) (c : String) (sq : ℤ)
    (st : Store) :
    (updateProduct id n pr c sq st).1.orders = st.orders ∧
    (updateProduct id n pr c sq st).1.order_items = st.order_items ∧
    ∀ oid, itemsOf (updateProduct id n pr c sq st).1 oid = itemsOf st oid := by
  unfold updateProduct
  split
  · exact ⟨rfl, rfl, fun _ => rfl⟩
  · split
    · exact ⟨rfl, rfl, fun _ => rfl⟩
    · split
      · exact ⟨rfl, rfl, fun _ => rfl⟩
      · exact ⟨rfl, rfl, fun _ => rfl⟩

/-- Filtering the kept-items list of a deleted order for that order's id
yields nothing: the erased order's rows are all gone. -/
lemma itemsOf_eraseOrder_self (id : ℕ) (st : Store) :
    itemsOf (eraseOrder id st) id = [] := by
  unfold itemsOf eraseOrder
  induction st.order_items with
  | nil => rfl
  | cons x xs ih =>
    by_cases hx : x.order_id = id
    · simp [hx]
    · simp [hx]

/-- C9: deleting an order: an admin succeeds unconditionally (whatever the
order's status); any other requester succeeds only on an own, cancelled
order, getting 403 when not the owner and 400 (invalid state) when the
order is not cancelled, with the store untouched in both rejection cases;
a successful deletion removes the order row and all its order_items rows
in the one transaction. -/
theorem deleteOrder_gating (uid : ℕ) (role : String) (oid : ℕ) (st : Store) (o : Order)
    (ho : st.orders oid = some o) :
    (role = "admin" → deleteOrder uid role oid st = (eraseOrder oid st, 200)) ∧
    (¬ role = "admin" → ¬ o.user_id = uid → deleteOrder uid role oid st = (st, 403)) ∧
    (¬ role = "admin" → o.user_id = uid → ¬ o.status = "cancelled" →
      deleteOrder uid role oid st = (st, 400)) ∧
    (¬ role = "admin" → o.user_id = uid → o.status = "cancelled" →
      deleteOrder uid role oid st = (eraseOrder oid st, 200)) ∧
    (eraseOrder oid st).orders oid = none ∧
    itemsOf (eraseOrder oid st) oid = [] := by
  refine ⟨?_, ?_, ?_, ?_, ?_, itemsOf_eraseOrder_self oid st⟩
  · intro h; simp [deleteOrder, ho, h]
  · intro h1 h2; simp [deleteOrder, ho, h1, h2]
  · intro h1 h2 h3; simp [deleteOrder, ho, h1, h2, h3]
  · intro h1 h2 h3; simp [deleteOrder, ho, h1, h2, h3]
  · simp [eraseOrder]

/-- Witness for C9: a non-admin owner deleting their cancelled order. -/
theorem deleteOrder_gating_witness :
    (stDel.orders 4 = some oDel) ∧
    (¬ "user" = "admin" → oDel.user_id = 3 → oDel.status = "cancelled" →
      deleteOrder 3 "user" 4 stDel = (eraseOrder 4 stDel, 200)) :=
  ⟨rfl, (deleteOrder_gating 3 "user" 4 stDel oDel rfl).2.2.2.1⟩

/-- Unfolding `qtyFor` over a cons. -/
lemma qtyFor_cons (pid : ℕ) (it : RequestItem) (rest : List RequestItem) :
    qtyFor pid (it :: rest) =
      (if it.productId = pid then it.quantity else 0) + qtyFor pid rest := by
  simp [qtyFor]

/-- Effect of the item loop on one product row: on success the row's stock
drops by exactly the total quantity the items request for it (its price
untouched), and a nonnegative stock stays nonnegative because every
decrement was guarded by the stock check. -/
lemma processItems_products (its : List RequestItem) :
    ∀ (st : Store) (total : ℤ) (acc : List PendingItem) (st' : Store) (t' : ℤ)
      (pend : List PendingItem),
      processItems its st total acc = .ok (st', t', pend) →
      ∀ pid p, st.products pid = some p →
        st'.products pid = some ⟨p.price, p.stock_quantity - qtyFor pid its⟩ ∧
        (0 ≤ p.stock_quantity → 0 ≤ p.stock_quantity - qtyFor pid its) := by
  induction its with
  | nil =>
    intro st total acc st' t' pend h pid p hp
    simp [processItems] at h
    obtain ⟨h1, -, -⟩ := h
    subst h1
    simp [qtyFor, hp]
  | cons it rest ih =>
    intro st total acc st' t' pend h pid p hp
    rw [processItems] at h
    cases hq : st.products it.productId with
    | none => rw [hq] at h; exact absurd h (by simp)
    | some prod =>
      rw [hq] at h
      by_cases hlt : prod.stock_quantity < it.quantity
      · simp [hlt] at h
      · simp only [if_neg hlt] at h
        by_cases hpid : it.productId = pid
        · subst hpid
          rw [hp] at hq
          injection hq with hq
          subst hq
          have hres := ih _ _ _ _ _ _ h it.productId
            ⟨p.price, p.stock_quantity - it.quantity⟩ (by simp)
          have hsq : (⟨p.price, p.stock_quantity - it.quantity⟩ : Product).stock_quantity
              = p.stock_quantity - it.quantity := rfl
          rw [qtyFor_cons, if_pos rfl]
          constructor
          · rw [hres.1, hsq]
            congr 2
            omega
          · intro _
            have h2 : (0 : ℤ) ≤ p.stock_quantity - it.quantity := by omega
            have h3 := hres.2 h2
            rw [hsq] at h3
            omega
        · have hres := ih _ _ _ _ _ _ h pid p (by simp [Ne.symm hpid, hp])
          rw [qtyFor_cons, if_neg hpid]
          simpa using hres

/-- Effect of one order-creation call on one product row: a committed call
subtracts the request's total quantity for that product, a failed call
leaves it untouched; nonnegative stock stays nonnegative. -/
lemma createOrder_products (u : ℕ) (a : String) (its : List RequestItem) (pf : Bool)
    (st : Store) (pid : ℕ) (p : Product) (hp : st.products pid = some p) :
    (createOrder u a its pf st).1.products pid =
      some ⟨p.price, p.stock_quantity -
        (if (createOrder u a its pf st).2.isCreated then qtyFor pid its else 0)⟩ ∧
    (0 ≤ p.stock_quantity →
      0 ≤ p.stock_quantity -
        (if (createOrder u a its pf st).2.isCreated then qtyFor pid its else 0)) := by
  by_cases hv : a = "" ∨ its = []
  · simp [createOrder, hv, OrderResp.isCreated, hp]
  · cases hproc : processItems its st 0 [] with
    | error e => simp [createOrder, hv, hproc, OrderResp.isCreated, hp]
    | ok r =>
      obtain ⟨st1, t1, pend⟩ := r
      have hP := processItems_products its st 0 [] st1 t1 pend hproc pid p hp
      cases pf with
      | false =>
        have hc : (createOrder u a its false st) =
            ((⟨st1.products,
              fun i => if i = st1.nextOrderId then
                some ⟨u, t1, "pending", "pending", a, none⟩ else st1.orders i,
              st1.order_items ++
                pend.map (fun q => ⟨st1.nextOrderId, q.productId, q.quantity, q.priceAtPurchase⟩),
              st1.nextOrderId + 1⟩ : Store),
             .created st1.nextOrderId t1) := by
          simp [createOrder, hv, hproc]
        rw [hc]
        simpa [OrderResp.isCreated] using hP
      | true => simp [createOrder, hv, hproc, OrderResp.isCreated, hp]

/-- Effect of a request sequence on one product row: stock drops by exactly
the committed quantities, price untouched, nonnegativity preserved. -/
lemma runOrders_products (rs : List OrderRequest) :
    ∀ (st : Store) (pid : ℕ) (p : Product), st.products pid = some p →
      (runOrders rs st).products pid =
        some ⟨p.price, p.stock_quantity - committedQty pid rs st⟩ ∧
      (0 ≤ p.stock_quantity → 0 ≤ p.stock_quantity - committedQty pid rs st) := by
  induction rs with
  | nil =>
    intro st pid p hp
    simp [runOrders, committedQty, hp]
  | cons r rest ih =>
    intro st pid p hp
    have h1 := createOrder_products r.userId r.shipping_address r.items r.persistFail st pid p hp
    have h2 := ih (applyCreate r st).1 pid
      ⟨p.price, p.stock_quantity -
        (if (applyCreate r st).2.isCreated then qtyFor pid r.items else 0)⟩ h1.1
    have hsq : (⟨p.price, p.stock_quantity -
        (if (applyCreate r st).2.isCreated then qtyFor pid r.items else 0)⟩ : Product).stock_quantity
        = p.stock_quantity -
          (if (applyCreate r st).2.isCreated then qtyFor pid r.items else 0) := rfl
    rw [hsq] at h2
    constructor
    · rw [runOrders, h2.1]
      congr 2
      rw [committedQty]
      omega
    · intro h0
      have hd := h1.2 h0
      have h3 := h2.2 hd
      rw [committedQty]
      omega

/-- C2: over any sequence of creation requests (each quantity positive, per
the stated precondition), a product's final stock equals its initial stock
minus the sum of the quantities of the requests that committed, and it
never goes negative — a request whose quantity exceeds the available stock
does not commit. -/
theorem stock_conservation (rs : List OrderRequest) (st : Store) (pid : ℕ) (p : Product)
    (hp : st.products pid = some p) (h0 : 0 ≤ p.stock_quantity)
    (_hq : ∀ r ∈ rs, ∀ it ∈ r.items, 0 < it.quantity) :
    (runOrders rs st).products pid =
      some ⟨p.price, p.stock_quantity - committedQty pid rs st⟩ ∧
    0 ≤ p.stock_quantity - committedQty pid rs st := by
  have h := runOrders_products rs st pid p hp
  exact ⟨h.1, h.2 h0⟩

/-- Witness for C2: two requests for 3 units each against stock 5 — the
first commits, the second fails, final stock 2. -/
theorem stock_conservation_witness :
    stC10.products 1 = some ⟨0, 5⟩ ∧ (0 : ℤ) ≤ (5 : ℤ) ∧
    (∀ r ∈ [(⟨7, "x", [⟨1, 3⟩], false⟩ : OrderRequest), ⟨8, "y", [⟨1, 3⟩], false⟩],
      ∀ it ∈ r.items, 0 < it.quantity) ∧
    ((runOrders [⟨7, "x", [⟨1, 3⟩], false⟩, ⟨8, "y", [⟨1, 3⟩], false⟩] stC10).products 1 =
      some ⟨0, 5 - committedQty 1 [⟨7, "x", [⟨1, 3⟩], false⟩, ⟨8, "y", [⟨1, 3⟩], false⟩] stC10⟩ ∧
     0 ≤ (5 : ℤ) - committedQty 1 [⟨7, "x", [⟨1, 3⟩], false⟩, ⟨8, "y", [⟨1, 3⟩], false⟩] stC10) :=
  ⟨by decide, by decide, by decide,
   stock_conservation [⟨7, "x", [⟨1, 3⟩], false⟩, ⟨8, "y", [⟨1, 3⟩], false⟩] stC10 1 ⟨0, 5⟩
     (by decide) (by decide) (by decide)⟩

/-- A verified succeeded-event delivery reduces to the conditional UPDATE. -/
lemma handleWebhook_succeeded (ev : StripeEvent) (oid : ℕ) (st : Store)
    (htype : ev.type = "payment_intent.succeeded") (hoid : ev.metadataOrderId = some oid) :
    handleStripeWebhook true (some ev) st =
      (applyPaymentUpdate "completed" oid ev.paymentIntentId st, 200) := by
  simp [handleStripeWebhook, htype, hoid]

/-- A verified payment event of either kind reduces to the conditional
UPDATE writing its target payment status. -/
lemma handleWebhook_update (ev : StripeEvent) (oid : ℕ) (ps : String) (st : Store)
    (htype : (ev.type = "payment_intent.succeeded" ∧ ps = "completed") ∨
      (ev.type = "payment_intent.payment_failed" ∧ ps = "failed"))
    (hoid : ev.metadataOrderId = some oid) :
    handleStripeWebhook true (some ev) st =
      (applyPaymentUpdate ps oid ev.paymentIntentId st, 200) := by
  rcases htype with ⟨h1, h2⟩ | ⟨h1, h2⟩
  · subst h2
    simp [handleStripeWebhook, h1, hoid]
  · subst h2
    have hne : ¬ ev.type = "payment_intent.succeeded" := by
      rw [h1]
      decide
    simp [handleStripeWebhook, hne, h1, hoid]

/-- C6: a verified payment event (succeeded setting completed, failed
setting failed) updates payment_status only on the order matching BOTH the
order id extracted from the event metadata and the stored payment-intent
id; every other order row is returned unchanged, no other table is
touched, and the handler acknowledges with 200 even when no row matches
(the update is then a no-op). -/
theorem webhook_isolation (ev : StripeEvent) (oid : ℕ) (ps : String) (st : Store)
    (htype : (ev.type = "payment_intent.succeeded" ∧ ps = "completed") ∨
      (ev.type = "payment_intent.payment_failed" ∧ ps = "failed"))
    (hoid : ev.metadataOrderId = some oid) :
    (handleStripeWebhook true (some ev) st).2 = 200 ∧
    (handleStripeWebhook true (some ev) st).1.products = st.products ∧
    (handleStripeWebhook true (some ev) st).1.order_items = st.order_items ∧
    (handleStripeWebhook true (some ev) st).1.nextOrderId = st.nextOrderId ∧
    (∀ i, st.orders i = none → (handleStripeWebhook true (some ev) st).1.orders i = none) ∧
    ∀ i o, st.orders i = some o →
      ((i = oid ∧ o.stripe_payment_intent_id = some ev.paymentIntentId) →
        (handleStripeWebhook true (some ev) st).1.orders i =
          some { o with payment_status := ps }) ∧
      (¬ (i = oid ∧ o.stripe_payment_intent_id = some ev.paymentIntentId) →
        (handleStripeWebhook true (some ev) st).1.orders i = some o) := by
  rw [handleWebhook_update ev oid ps st htype hoid]
  refine ⟨rfl, rfl, rfl, rfl, ?_, ?_⟩
  · intro i hi
    simp [applyPaymentUpdate, hi]
  · intro i o ho
    constructor
    · intro hc
      obtain ⟨h1, h2⟩ := hc
      subst h1
      simp [applyPaymentUpdate, ho, h2]
    · intro hc
      simp [applyPaymentUpdate, ho, hc]

/-- The conditional UPDATE is idempotent: the row it rewrites keeps the
payment-intent id, so a second identical UPDATE matches the same row and
writes the same value. -/
lemma applyPaymentUpdate_idem (s : String) (oid : ℕ) (piId : String) (st : Store) :
    applyPaymentUpdate s oid piId (applyPaymentUpdate s oid piId st) =
      applyPaymentUpdate s oid piId st := by
  unfold applyPaymentUpdate
  refine congrArg (fun f => Store.mk st.products f st.order_items st.nextOrderId) ?_
  funext i
  cases ho : st.orders i with
  | none => simp [ho]
  | some o =>
    by_cases hc : i = oid ∧ o.stripe_payment_intent_id = some piId
    · obtain ⟨h1, h2⟩ := hc
      subst h1
      simp [ho, h2]
    · simp [ho, hc]

/-- C7: delivering the identical verified payment_succeeded event twice
leaves the store exactly as one delivery does (so the replay mutates
nothing), the matched order's payment_status is completed after the first
delivery, and both deliveries are acknowledged with 200. -/
theorem webhook_idempotent (ev : StripeEvent) (oid : ℕ) (st : Store)
    (htype : ev.type = "payment_intent.succeeded") (hoid : ev.metadataOrderId = some oid) :
    handleStripeWebhook true (some ev) ((handleStripeWebhook true (some ev) st).1) =
      handleStripeWebhook true (some ev) st ∧
    (handleStripeWebhook true (some ev) st).2 = 200 ∧
    ∀ i o, st.orders i = some o →
      i = oid → o.stripe_payment_intent_id = some ev.paymentIntentId →
      (handleStripeWebhook true (some ev) st).1.orders i =
        some { o with payment_status := "completed" } := by
  refine ⟨?_, ?_, ?_⟩
  · rw [handleWebhook_succeeded ev oid st htype hoid]
    rw [handleWebhook_succeeded ev oid _ htype hoid]
    rw [applyPaymentUpdate_idem]
  · rw [handleWebhook_succeeded ev oid st htype hoid]
  · intro i o ho h1 h2
    subst h1
    rw [handleWebhook_succeeded ev i st htype hoid]
    simp [applyPaymentUpdate, ho, h2]

/-- Witness for C6 at a concrete verified failed event against two orders. -/
theorem webhook_isolation_witness :
    ((evF.type = "payment_intent.succeeded" ∧ "failed" = "completed") ∨
      (evF.type = "payment_intent.payment_failed" ∧ "failed" = "failed")) ∧
    evF.metadataOrderId = some 5 ∧
    ((handleStripeWebhook true (some evF) stWeb).2 = 200 ∧
     (handleStripeWebhook true (some evF) stWeb).1.products = stWeb.products ∧
     (handleStripeWebhook true (some evF) stWeb).1.order_items = stWeb.order_items ∧
     (handleStripeWebhook true (some evF) stWeb).1.nextOrderId = stWeb.nextOrderId ∧
     (∀ i, stWeb.orders i = none → (handleStripeWebhook true (some evF) stWeb).1.orders i = none) ∧
     ∀ i o, stWeb.orders i = some o →
       ((i = 5 ∧ o.stripe_payment_intent_id = some evF.paymentIntentId) →
         (handleStripeWebhook true (some evF) stWeb).1.orders i =
           some { o with payment_status := "failed" }) ∧
       (¬ (i = 5 ∧ o.stripe_payment_intent_id = some evF.paymentIntentId) →
         (handleStripeWebhook true (some evF) stWeb).1.orders i = some o)) :=
  ⟨Or.inr ⟨rfl, rfl⟩, rfl,
   webhook_isolation evF 5 "failed" stWeb (Or.inr ⟨rfl, rfl⟩) rfl⟩

/-- Witness for C7 at the same concrete event. -/
theorem webhook_idempotent_witness :
    evW.type = "payment_intent.succeeded" ∧ evW.metadataOrderId = some 5 ∧
    (handleStripeWebhook true (some evW) ((handleStripeWebhook true (some evW) stWeb).1) =
       handleStripeWebhook true (some evW) stWeb ∧
     (handleStripeWebhook true (some evW) stWeb).2 = 200 ∧
     ∀ i o, stWeb.orders i = some o →
       i = 5 → o.stripe_payment_intent_id = some evW.paymentIntentId →
       (handleStripeWebhook true (some evW) stWeb).1.orders i =
         some { o with payment_status := "completed" }) :=
  ⟨rfl, rfl, webhook_idempotent evW 5 stWeb rfl rfl⟩

/-- The item loop never touches the orders map, the order_items rows or the
order-id counter. -/
lemma processItems_frame (its : List RequestItem) :
    ∀ (st : Store) (total : ℤ) (acc : List PendingItem) (st' : Store) (t' : ℤ)
      (pend : List PendingItem),
      processItems its st total acc = .ok (st', t', pend) →
      st'.orders = st.orders ∧ st'.order_items = st.order_items ∧
        st'.nextOrderId = st.nextOrderId := by
  induction its with
  | nil =>
    intro st total acc st' t' pend h
    simp [processItems] at h
    obtain ⟨h1, -, -⟩ := h
    subst h1
    exact ⟨rfl, rfl, rfl⟩
  | cons it rest ih =>
    intro st total acc st' t' pend h
    rw [processItems] at h
    cases hq : st.products it.productId with
    | none => rw [hq] at h; exact absurd h (by simp)
    | some prod =>
      rw [hq] at h
      by_cases hlt : prod.stock_quantity < it.quantity
      · simp [hlt] at h
      · simp only [if_neg hlt] at h
        obtain ⟨a1, a2, a3⟩ := ih _ _ _ _ _ _ h
        exact ⟨a1, a2, a3⟩

/-- The accumulated total is the binary64 left-fold of
`price_at_purchase * quantity` over the pending items the loop appends. -/
lemma processItems_total (its : List RequestItem) :
    ∀ (st : Store) (total : ℤ) (acc : List PendingItem) (st' : Store) (t' : ℤ)
      (pend : List PendingItem),
      processItems its st total acc = .ok (st', t', pend) →
      ∃ ex, pend = acc ++ ex ∧
        t' = ex.foldl (fun t q => fadd t (fmul q.priceAtPurchase (fofInt q.quantity))) total := by
  induction its with
  | nil =>
    intro st total acc st' t' pend h
    simp [processItems] at h
    obtain ⟨-, h2, h3⟩ := h
    exact ⟨[], by simp [h3.symm], by simp [h2.symm]⟩
  | cons it rest ih =>
    intro st total acc st' t' pend h
    rw [processItems] at h
    cases hq : st.products it.productId with
    | none => rw [hq] at h; exact absurd h (by simp)
    | some prod =>
      rw [hq] at h
      by_cases hlt : prod.stock_quantity < it.quantity
      · simp [hlt] at h
      · simp only [if_neg hlt] at h
        obtain ⟨ex', hpend, ht⟩ := ih _ _ _ _ _ _ h
        refine ⟨⟨it.productId, it.quantity, fParse prod.price⟩ :: ex', ?_, ?_⟩
        · simp [hpend]
        · rw [ht, List.foldl_cons]

/-- Invariants transfer to a store with the same orders, rows and counter. -/
lemma inv_transfer (st st' : Store) (ho : st'.orders = st.orders)
    (hi : st'.order_items = st.order_items) (hn : st'.nextOrderId = st.nextOrderId) :
    (WFStore st → WFStore st') ∧ (TotalInv st → TotalInv st') := by
  constructor
  · intro h
    constructor
    · rw [hi, hn]
      exact h.1
    · intro oid hle
      rw [hn] at hle
      rw [ho]
      exact h.2 oid hle
  · intro h oid o hoo
    rw [ho] at hoo
    have hitems : itemsOf st' oid = itemsOf st oid := by
      unfold itemsOf
      rw [hi]
    rw [hitems]
    exact h oid o hoo

/-- Invariants transfer when the rows and counter are unchanged and each
order row is either untouched or replaced keeping its total_amount. -/
lemma inv_orders_total_preserved (st st' : Store)
    (hi : st'.order_items = st.order_items) (hn : st'.nextOrderId = st.nextOrderId)
    (ho : ∀ i, st'.orders i = st.orders i ∨
      ∃ o o', st.orders i = some o ∧ st'.orders i = some o' ∧
        o'.total_amount = o.total_amount) :
    (WFStore st → WFStore st') ∧ (TotalInv st → TotalInv st') := by
  constructor
  · intro h
    constructor
    · rw [hi, hn]
      exact h.1
    · intro oid hle
      rw [hn] at hle
      rcases ho oid with he | ⟨o, o', hso, hso', -⟩
      · rw [he]
        exact h.2 oid hle
      · rw [h.2 oid hle] at hso
        exact absurd hso (by simp)
  · intro h oid o' hoo
    have hitems : itemsOf st' oid = itemsOf st oid := by
      unfold itemsOf
      rw [hi]
    rcases ho oid with he | ⟨o, o'', hso, hso', htot⟩
    · rw [he] at hoo
      rw [hitems]
      exact h oid o' hoo
    · rw [hso'] at hoo
      injection hoo with hoo
      subst hoo
      rw [hitems, htot]
      exact h oid o hso

/-- The conditional payment UPDATE preserves both invariants. -/
lemma applyPaymentUpdate_inv (s : String) (oid : ℕ) (piId : String) (st : Store) :
    (WFStore st → WFStore (applyPaymentUpdate s oid piId st)) ∧
    (TotalInv st → TotalInv (applyPaymentUpdate s oid piId st)) := by
  apply inv_orders_total_preserved st (applyPaymentUpdate s oid piId st) rfl rfl
  intro j
  cases hj : st.orders j with
  | none =>
    left
    simp [applyPaymentUpdate, hj]
  | some o =>
    by_cases hc : j = oid ∧ o.stripe_payment_intent_id = some piId
    · obtain ⟨h1, h2⟩ := hc
      subst h1
      right
      exact ⟨o, { o with payment_status := s }, rfl, by simp [applyPaymentUpdate, hj, h2], rfl⟩
    · left
      simp [applyPaymentUpdate, hj, hc]

/-- Pre-filtering by a weaker predicate does not change a filter. -/
lemma filter_filter_subpred (p q : OrderItem → Bool) (hpq : ∀ a, p a = true → q a = true) :
    ∀ l : List OrderItem, (l.filter q).filter p = l.filter p := by
  intro l
  induction l with
  | nil => rfl
  | cons x xs ihx =>
    cases hqx : q x with
    | false =>
      have hpx : p x = false := by
        cases hpx : p x
        · rfl
        · exact absurd (hpq x hpx) (by simp [hqx])
      simp [List.filter_cons, hqx, hpx, ihx]
    | true =>
      cases hpx : p x
      · simp [List.filter_cons, hqx, hpx, ihx]
      · simp [List.filter_cons, hqx, hpx, ihx]

/-- Rows of a different order survive the deletion filter unchanged. -/
lemma filter_filter_ne (id oid : ℕ) (ho : ¬ oid = id) (l : List OrderItem) :
    (l.filter (fun it => if it.order_id = id then false else true)).filter
      (fun it => if it.order_id = oid then true else false) =
    l.filter (fun it => if it.order_id = oid then true else false) := by
  apply filter_filter_subpred
  intro a ha
  by_cases hx : a.order_id = oid
  · have hne : ¬ a.order_id = id := by
      rw [hx]
      exact ho
    simp [hne]
  · simp [hx] at ha

/-- Deleting an order and its rows preserves both invariants. -/
lemma eraseOrder_inv (id : ℕ) (st : Store) :
    (WFStore st → WFStore (eraseOrder id st)) ∧ (TotalInv st → TotalInv (eraseOrder id st)) := by
  constructor
  · intro h
    constructor
    · intro it hit
      exact h.1 it (List.mem_of_mem_filter hit)
    · intro oid hle
      by_cases ho : oid = id
      · simp [eraseOrder, ho]
      · simp only [eraseOrder]
        rw [if_neg ho]
        exact h.2 oid hle
  · intro h oid o hoo
    by_cases ho : oid = id
    · have : (eraseOrder id st).orders oid = none := by simp [eraseOrder, ho]
      rw [this] at hoo
      exact absurd hoo (by simp)
    · have hoo' : st.orders oid = some o := by
        have : (eraseOrder id st).orders oid = st.orders oid := by
          simp only [eraseOrder]
          rw [if_neg ho]
        rw [this] at hoo
        exact hoo
      have hit : itemsOf (eraseOrder id st) oid = itemsOf st oid := by
        unfold itemsOf eraseOrder
        exact filter_filter_ne id oid ho st.order_items
      rw [hit]
      exact h oid o hoo'

/-- Every operation preserves the serial-id discipline and the binary64
total invariant. -/
lemma applyOp_inv (op : Op) (st : Store) (hwf : WFStore st) (hinv : TotalInv st) :
    WFStore (applyOp op st) ∧ TotalInv (applyOp op st) := by
  cases op with
  | productUpdate i n pz c sz =>
    have heq : (updateProduct i n pz c sz st).1.orders = st.orders ∧
        (updateProduct i n pz c sz st).1.order_items = st.order_items ∧
        (updateProduct i n pz c sz st).1.nextOrderId = st.nextOrderId := by
      unfold updateProduct
      split
      · exact ⟨rfl, rfl, rfl⟩
      · split
        · exact ⟨rfl, rfl, rfl⟩
        · split
          · exact ⟨rfl, rfl, rfl⟩
          · exact ⟨rfl, rfl, rfl⟩
    have ht := inv_transfer st (updateProduct i n pz c sz st).1 heq.1 heq.2.1 heq.2.2
    exact ⟨ht.1 hwf, ht.2 hinv⟩
  | productDelete i =>
    have heq : (deleteProduct i st).1.orders = st.orders ∧
        (deleteProduct i st).1.order_items = st.order_items ∧
        (deleteProduct i st).1.nextOrderId = st.nextOrderId := by
      unfold deleteProduct
      split
      · exact ⟨rfl, rfl, rfl⟩
      · split
        · exact ⟨rfl, rfl, rfl⟩
        · exact ⟨rfl, rfl, rfl⟩
    have ht := inv_transfer st (deleteProduct i st).1 heq.1 heq.2.1 heq.2.2
    exact ⟨ht.1 hwf, ht.2 hinv⟩
  | statusUpdate i s =>
    show WFStore (setOrderStatus i s st).1 ∧ TotalInv (setOrderStatus i s st).1
    unfold setOrderStatus
    split
    · exact ⟨hwf, hinv⟩
    · cases ho : st.orders i with
      | none => exact ⟨hwf, hinv⟩
      | some o =>
        have ht := inv_orders_total_preserved st
          ({ st with orders := fun j =>
            if j = i then some { o with status := s } else st.orders j }) rfl rfl ?_
        · exact ⟨ht.1 hwf, ht.2 hinv⟩
        · intro j
          by_cases hj : j = i
          · subst hj
            right
            exact ⟨o, { o with status := s }, ho, by simp, rfl⟩
          · left
            simp [hj]
  | paymentStatusUpdate i s =>
    show WFStore (setOrderPaymentStatus i s st).1 ∧ TotalInv (setOrderPaymentStatus i s st).1
    unfold setOrderPaymentStatus
    split
    · exact ⟨hwf, hinv⟩
    · cases ho : st.orders i with
      | none => exact ⟨hwf, hinv⟩
      | some o =>
        have ht := inv_orders_total_preserved st
          ({ st with orders := fun j =>
            if j = i then some { o with payment_status := s } else st.orders j }) rfl rfl ?_
        · exact ⟨ht.1 hwf, ht.2 hinv⟩
        · intro j
          by_cases hj : j = i
          · subst hj
            right
            exact ⟨o, { o with payment_status := s }, ho, by simp, rfl⟩
          · left
            simp [hj]
  | webhook cfg ev =>
    show WFStore (handleStripeWebhook cfg ev st).1 ∧ TotalInv (handleStripeWebhook cfg ev st).1
    cases cfg with
    | false => exact ⟨hwf, hinv⟩
    | true =>
      cases ev with
      | none => exact ⟨hwf, hinv⟩
      | some e =>
        by_cases h1 : e.type = "payment_intent.succeeded"
        · cases hm : e.metadataOrderId with
          | none => simp [handleStripeWebhook, h1, hm]; exact ⟨hwf, hinv⟩
          | some oid =>
            have hw : (handleStripeWebhook true (some e) st).1 =
                applyPaymentUpdate "completed" oid e.paymentIntentId st := by
              simp [handleStripeWebhook, h1, hm]
            rw [hw]
            have ht := applyPaymentUpdate_inv "completed" oid e.paymentIntentId st
            exact ⟨ht.1 hwf, ht.2 hinv⟩
        · by_cases h2 : e.type = "payment_intent.payment_failed"
          · cases hm : e.metadataOrderId with
            | none => simp [handleStripeWebhook, h1, h2, hm]; exact ⟨hwf, hinv⟩
            | some oid =>
              have hw : (handleStripeWebhook true (some e) st).1 =
                  applyPaymentUpdate "failed" oid e.paymentIntentId st := by
                simp [handleStripeWebhook, h1, h2, hm]
              rw [hw]
              have ht := applyPaymentUpdate_inv "failed" oid e.paymentIntentId st
              exact ⟨ht.1 hwf, ht.2 hinv⟩
          · simp [handleStripeWebhook, h1, h2]
            exact ⟨hwf, hinv⟩
  | orderDelete u r i =>
    show WFStore (deleteOrder u r i st).1 ∧ TotalInv (deleteOrder u r i st).1
    cases ho : st.orders i with
    | none =>
      have hc : (deleteOrder u r i st).1 = st := by simp [deleteOrder, ho]
      rw [hc]
      exact ⟨hwf, hinv⟩
    | some o =>
      have ht := eraseOrder_inv i st
      by_cases hr : r = "admin"
      · have hc : (deleteOrder u r i st).1 = eraseOrder i st := by simp [deleteOrder, ho, hr]
        rw [hc]
        exact ⟨ht.1 hwf, ht.2 hinv⟩
      · by_cases hu : o.user_id = u
        · by_cases hs : o.status = "cancelled"
          · have hc : (deleteOrder u r i st).1 = eraseOrder i st := by
              simp [deleteOrder, ho, hr, hu, hs]
            rw [hc]
            exact ⟨ht.1 hwf, ht.2 hinv⟩
          · have hc : (deleteOrder u r i st).1 = st := by simp [deleteOrder, ho, hr, hu, hs]
            rw [hc]
            exact ⟨hwf, hinv⟩
        · have hc : (deleteOrder u r i st).1 = st := by simp [deleteOrder, ho, hr, hu]
          rw [hc]
          exact ⟨hwf, hinv⟩
  | create u a its pf =>
    show WFStore (createOrder u a its pf st).1 ∧ TotalInv (createOrder u a its pf st).1
    by_cases hv : a = "" ∨ its = []
    · have hc : (createOrder u a its pf st).1 = st := by simp [createOrder, hv]
      rw [hc]
      exact ⟨hwf, hinv⟩
    · cases hproc : processItems its st 0 [] with
      | error e =>
        have hc : (createOrder u a its pf st).1 = st := by simp [createOrder, hv, hproc]
        rw [hc]
        exact ⟨hwf, hinv⟩
      | ok r =>
        obtain ⟨st1, t1, pend⟩ := r
        cases pf with
        | true =>
          have hc : (createOrder u a its true st).1 = st := by simp [createOrder, hv, hproc]
          rw [hc]
          exact ⟨hwf, hinv⟩
        | false =>
          obtain ⟨hord, hitems, hnext⟩ := processItems_frame its st 0 [] st1 t1 pend hproc
          obtain ⟨ex, hex, ht⟩ := processItems_total its st 0 [] st1 t1 pend hproc
          rw [List.nil_append] at hex
          subst hex
          have hS : (createOrder u a its false st).1 =
              (⟨st1.products,
                fun i => if i = st.nextOrderId then
                  some ⟨u, t1, "pending", "pending", a, none⟩ else st.orders i,
                st.order_items ++
                  pend.map (fun q =>
                    ⟨st.nextOrderId, q.productId, q.quantity, q.priceAtPurchase⟩),
                st.nextOrderId + 1⟩ : Store) := by
            simp [createOrder, hv, hproc, hord, hitems, hnext]
          rw [hS]
          have hio : ∀ k, itemsOf
              (⟨st1.products,
                fun i => if i = st.nextOrderId then
                  some ⟨u, t1, "pending", "pending", a, none⟩ else st.orders i,
                st.order_items ++
                  pend.map (fun q =>
                    ⟨st.nextOrderId, q.productId, q.quantity, q.priceAtPurchase⟩),
                st.nextOrderId + 1⟩ : Store) k =
              itemsOf st k ++
                (pend.map (fun q =>
                  (⟨st.nextOrderId, q.productId, q.quantity, q.priceAtPurchase⟩ : OrderItem))).filter
                  (fun it => if it.order_id = k then true else false) := by
            intro k
            unfold itemsOf
            apply List.filter_append
          constructor
          · constructor
            · intro it hit
              rcases List.mem_append.mp hit with hold | hnew
              · exact Nat.lt_succ_of_lt (hwf.1 it hold)
              · obtain ⟨q, -, hqe⟩ := List.mem_map.mp hnew
                rw [← hqe]
                exact Nat.lt_succ_self st.nextOrderId
            · intro oid hle
              have hle' : st.nextOrderId + 1 ≤ oid := hle
              have h1 : ¬ oid = st.nextOrderId := by omega
              show (if oid = st.nextOrderId then _ else st.orders oid) = none
              rw [if_neg h1]
              exact hwf.2 oid (by omega)
          · intro oid o hoo
            by_cases hoid : oid = st.nextOrderId
            · have hoo' : o = ⟨u, t1, "pending", "pending", a, none⟩ := by
                have : (if oid = st.nextOrderId then
                    some (⟨u, t1, "pending", "pending", a, none⟩ : Order)
                    else st.orders oid) = some o := hoo
                rw [if_pos hoid] at this
                exact (Option.some.injEq _ _ ▸ this).symm
              subst hoo'
              show t1 = _
              rw [hio oid, hoid]
              have hold : itemsOf st st.nextOrderId = [] := by
                unfold itemsOf
                rw [List.filter_eq_nil_iff]
                intro it hit
                have hlt := hwf.1 it hit
                simp
                omega
              have hnew : (pend.map (fun q =>
                  (⟨st.nextOrderId, q.productId, q.quantity, q.priceAtPurchase⟩ : OrderItem))).filter
                    (fun it => if it.order_id = st.nextOrderId then true else false) =
                  pend.map (fun q =>
                    (⟨st.nextOrderId, q.productId, q.quantity, q.priceAtPurchase⟩ : OrderItem)) := by
                rw [List.filter_eq_self]
                intro it hit
                obtain ⟨q, -, hqe⟩ := List.mem_map.mp hit
                rw [← hqe]
                simp
              rw [hold, hnew, List.nil_append]
              unfold itemsTotal
              rw [List.foldl_map]
              exact ht
            · have hoo' : st.orders oid = some o := by
                have : (if oid = st.nextOrderId then
                    some (⟨u, t1, "pending", "pending", a, none⟩ : Order)
                    else st.orders oid) = some o := hoo
                rw [if_neg hoid] at this
                exact this
              rw [hio oid]
              have hnew : (pend.map (fun q =>
                  (⟨st.nextOrderId, q.productId, q.quantity, q.priceAtPurchase⟩ : OrderItem))).filter
                    (fun it => if it.order_id = oid then true else false) = [] := by
                rw [List.filter_eq_nil_iff]
                intro it hit
                obtain ⟨q, -, hqe⟩ := List.mem_map.mp hit
                rw [← hqe]
                simp
                exact fun hc => hoid hc.symm
              rw [hnew, List.append_nil]
              exact hinv oid o hoo'

/-- C3 (amended): for every persisted order, total_amount equals the
binary64 left-fold of price_at_purchase × quantity the creation loop
computed — established when the order is created and preserved by every
later operation of the surface (product updates and deletes, status and
payment-status updates, webhooks, deletions, further creations), none of
which recomputes it.  The equality holds in JS binary64 accumulation, not
exact decimal arithmetic (see the counterexample). -/
theorem total_amount_invariant (ops : List Op) (st : Store)
    (hwf : WFStore st) (hinv : TotalInv st) :
    WFStore (applyOps ops st) ∧ TotalInv (applyOps ops st) := by
  induction ops generalizing st with
  | nil => exact ⟨hwf, hinv⟩
  | cons op ops ih =>
    have h := applyOp_inv op st hwf hinv
    exact ih (applyOp op st) h.1 h.2

/-- Witness for C3's amended theorem: a creation followed by a price update
and a webhook, starting from a well-formed store. -/
theorem total_amount_invariant_witness :
    WFStore stC3 ∧ TotalInv stC3 ∧
    (WFStore (applyOps
        [Op.create 7 "a" [⟨1, 1⟩, ⟨2, 1⟩] false,
         Op.productUpdate 1 "n" (dec 9 1) "c" 10,
         Op.webhook true (some evW)] stC3) ∧
     TotalInv (applyOps
        [Op.create 7 "a" [⟨1, 1⟩, ⟨2, 1⟩] false,
         Op.productUpdate 1 "n" (dec 9 1) "c" 10,
         Op.webhook true (some evW)] stC3)) := by
  have hwf : WFStore stC3 := by
    constructor
    · intro it hit
      exact absurd hit (List.not_mem_nil it)
    · intro oid _
      rfl
  have hinv : TotalInv stC3 := by
    intro oid o hoo
    exact absurd hoo (by simp [stC3])
  exact ⟨hwf, hinv,
    total_amount_invariant
      [Op.create 7 "a" [⟨1, 1⟩, ⟨2, 1⟩] false,
       Op.productUpdate 1 "n" (dec 9 1) "c" 10,
       Op.webhook true (some evW)] stC3 hwf hinv⟩

/-- Counterexample for C3 as stated: ordering one unit each of the 0.1 and
0.2 products commits, but the persisted total_amount (the binary64 sum,
0.30000000000000004) differs from the exact decimal sum of
price_at_purchase × quantity over the order's items (0.30000000000000001665…):
JS float accumulation loses the claimed exactness. -/
theorem total_amount_counterexample :
    (createOrder 7 "a" [⟨1, 1⟩, ⟨2, 1⟩] false stC3).2.isCreated = true ∧
    ¬ ((createOrder 7 "a" [⟨1, 1⟩, ⟨2, 1⟩] false stC3).1.orders 1).map Order.total_amount =
      some (exactItemsSum (itemsOf (createOrder 7 "a" [⟨1, 1⟩, ⟨2, 1⟩] false stC3).1 1)) := by
  constructor
  · decide
  · decide

/-- C10: input validation never rejects a request over its quantities (only
a missing shipping address or an empty item list produce the validation
error), the stock check `stock_quantity < quantity` passes for any
non-positive quantity, and a concrete request for -3 units commits an order
while raising the product's stock from 5 to 8. -/
theorem negativeQuantity_accepted :
    (∀ (u : ℕ) (a : String) (its : List RequestItem) (pf : Bool) (st : Store),
      ¬ a = "" → ¬ its = [] →
      ¬ (createOrder u a its pf st).2 = .validationError) ∧
    (createOrder 7 "x" [⟨1, -3⟩] false stC10).2.isCreated = true ∧
    ((createOrder 7 "x" [⟨1, -3⟩] false stC10).1.products 1).map Product.stock_quantity =
      some 8 := by
  refine ⟨?_, by decide, by decide⟩
  intro u a its pf st ha hi
  have hv : ¬ (a = "" ∨ its = []) := by
    intro hc
    rcases hc with hc | hc
    · exact ha hc
    · exact hi hc
  cases hproc : processItems its st 0 [] with
  | error e => simp [createOrder, hv, hproc]
  | ok r =>
    obtain ⟨st1, t1, pend⟩ := r
    cases pf with
    | true => simp [createOrder, hv, hproc]
    | false => simp [createOrder, hv, hproc]

/-- Witness for C10's universally quantified validation clause at a
concrete call. -/
theorem negativeQuantity_accepted_witness :
    ¬ "x" = "" ∧ ¬ ([(⟨1, -3⟩ : RequestItem)] : List RequestItem) = [] ∧
    ¬ (createOrder 7 "x" [⟨1, -3⟩] false stC10).2 = .validationError :=
  ⟨by decide, by decide,
   negativeQuantity_accepted.1 7 "x" [⟨1, -3⟩] false stC10 (by decide) (by decide)⟩
